import Mathlib

/-
Verification development for the 2D rigid-body physics core
(`src/2dphysics/rigidbody.ts` and the near-duplicate legacy copy of the
same module).  The data model and the operations the specification talks
about are embedded shallowly over the real numbers: `Point` objects of the
`point2point` library become `Vec2`, the `PointCal` helper functions are
reproduced under the same names, and the mutating methods of
`BaseRigidBody` / `Polygon` / `Circle` become state-passing functions.
The `step` method is split into the three sequential blocks of the source
(friction, angular damping + orientation, linear integration) so that
intermediate states that the specification mentions are expressible; `step`
itself is their composition in source order.
-/

namespace Bolt2D

open Classical

noncomputable section

/-- A 2D point/vector, the `Point` type of the `point2point` dependency. -/
@[ext]
structure Vec2 where
  x : ℝ
  y : ℝ

namespace PointCal

/-- `PointCal.addVector`. -/
def addVector (a b : Vec2) : Vec2 := ⟨a.x + b.x, a.y + b.y⟩

/-- `PointCal.subVector`. -/
def subVector (a b : Vec2) : Vec2 := ⟨a.x - b.x, a.y - b.y⟩

/-- `PointCal.multiplyVectorByScalar`. -/
def multiplyVectorByScalar (v : Vec2) (s : ℝ) : Vec2 := ⟨v.x * s, v.y * s⟩

/-- `PointCal.divideVectorByScalar`. -/
def divideVectorByScalar (v : Vec2) (s : ℝ) : Vec2 := ⟨v.x / s, v.y / s⟩

/-- `PointCal.dotProduct`. -/
def dotProduct (a b : Vec2) : ℝ := a.x * b.x + a.y * b.y

/-- `PointCal.magnitude`: Euclidean length. -/
def magnitude (v : Vec2) : ℝ := Real.sqrt (v.x ^ 2 + v.y ^ 2)

/-- `PointCal.unitVector`.  Normalizing the zero vector yields the zero
vector (the error-handling contract of the spec for zero-length input). -/
def unitVector (v : Vec2) : Vec2 :=
  if magnitude v = 0 then ⟨0, 0⟩ else divideVectorByScalar v (magnitude v)

/-- `PointCal.rotatePoint`: counter-clockwise rotation by an angle. -/
def rotatePoint (p : Vec2) (angle : ℝ) : Vec2 :=
  ⟨p.x * Real.cos angle - p.y * Real.sin angle,
   p.x * Real.sin angle + p.y * Real.cos angle⟩

lemma magnitude_nonneg (v : Vec2) : 0 ≤ magnitude v := Real.sqrt_nonneg _

lemma magnitude_zero : magnitude ⟨0, 0⟩ = 0 := by
  simp [magnitude]

lemma magnitude_eq_zero_iff (v : Vec2) : magnitude v = 0 ↔ v = ⟨0, 0⟩ := by
  constructor
  · intro h
    have h0 : v.x ^ 2 + v.y ^ 2 ≤ 0 := Real.sqrt_eq_zero'.mp h
    have hx : v.x = 0 := by nlinarith [sq_nonneg v.x, sq_nonneg v.y]
    have hy : v.y = 0 := by nlinarith [sq_nonneg v.x, sq_nonneg v.y]
    ext <;> simp [hx, hy]
  · intro h
    subst h
    exact magnitude_zero

lemma magnitude_axis (a : ℝ) (h : 0 ≤ a) : magnitude ⟨a, 0⟩ = a := by
  have : (a : ℝ) ^ 2 + 0 ^ 2 = a ^ 2 := by ring
  rw [magnitude]
  simp only [this]
  exact Real.sqrt_sq h

lemma addVector_zero_left (v : Vec2) : addVector ⟨0, 0⟩ v = v := by
  ext <;> simp [addVector]

lemma addVector_zero_right (v : Vec2) : addVector v ⟨0, 0⟩ = v := by
  ext <;> simp [addVector]

lemma addVector_assoc (a b c : Vec2) :
    addVector (addVector a b) c = addVector a (addVector b c) := by
  ext <;> simp [addVector] <;> ring

lemma multiplyVectorByScalar_zero_vec (s : ℝ) :
    multiplyVectorByScalar ⟨0, 0⟩ s = ⟨0, 0⟩ := by
  ext <;> simp [multiplyVectorByScalar]

lemma divideVectorByScalar_zero_vec (s : ℝ) :
    divideVectorByScalar ⟨0, 0⟩ s = ⟨0, 0⟩ := by
  ext <;> simp [divideVectorByScalar]

lemma subVector_self (v : Vec2) : subVector v v = ⟨0, 0⟩ := by
  ext <;> simp [subVector]

/-- Scalar multiplication and division by a scalar commute componentwise:
`(F * dt) / m = (F / m) * dt`. -/
lemma div_mul_swap (v : Vec2) (dt m : ℝ) :
    divideVectorByScalar (multiplyVectorByScalar v dt) m =
      multiplyVectorByScalar (divideVectorByScalar v m) dt := by
  ext <;> simp [divideVectorByScalar, multiplyVectorByScalar] <;>
    rw [mul_div_right_comm]

lemma unitVector_zero : unitVector ⟨0, 0⟩ = ⟨0, 0⟩ := by
  simp [unitVector, magnitude_zero]

end PointCal

/-! ### List helpers

`Math.min(...xs)` / `Math.max(...xs)` on a spread argument list, and
`Array.prototype.indexOf`, as used by the polygon queries.  On the empty
list JavaScript's `Math.min()` yields `+Infinity`; the embedding returns a
junk value `0` there, and every theorem that touches these helpers carries
the non-empty-vertex-list hypothesis of the shape contract. -/

/-- `Math.min(...l)` for a non-empty `l` (junk `0` on `[]`). -/
def listMin : List ℝ → ℝ
  | [] => 0
  | x :: xs => xs.foldl min x

/-- `Math.max(...l)` for a non-empty `l` (junk `0` on `[]`). -/
def listMax : List ℝ → ℝ
  | [] => 0
  | x :: xs => xs.foldl max x

/-- `Array.prototype.indexOf`: index of the first occurrence (junk
`l.length` when absent, which never happens at the call sites). -/
def indexOfReal : List ℝ → ℝ → Nat
  | [], _ => 0
  | x :: xs, a => if x = a then 0 else indexOfReal xs a + 1

/-- `projections.indexOf(Math.max(...projections))`. -/
def idxOfMax (l : List ℝ) : Nat := indexOfReal l (listMax l)

lemma foldl_min_le_init (l : List ℝ) (a : ℝ) : l.foldl min a ≤ a := by
  induction l generalizing a with
  | nil => exact le_refl a
  | cons x xs ih => exact le_trans (ih (min a x)) (min_le_left a x)

lemma foldl_min_le_mem (l : List ℝ) (a : ℝ) {x : ℝ} (hx : x ∈ l) :
    l.foldl min a ≤ x := by
  induction l generalizing a with
  | nil => cases hx
  | cons y ys ih =>
    rcases List.mem_cons.mp hx with h | h
    · subst h
      exact le_trans (foldl_min_le_init ys (min a x)) (min_le_right a x)
    · exact ih (min a y) h

lemma foldl_min_eq_init_or_mem (l : List ℝ) (a : ℝ) :
    l.foldl min a = a ∨ l.foldl min a ∈ l := by
  induction l generalizing a with
  | nil => exact Or.inl rfl
  | cons y ys ih =>
    rcases ih (min a y) with h | h
    · rcases min_choice a y with hc | hc
      · exact Or.inl (by rw [List.foldl_cons, h, hc])
      · exact Or.inr (by rw [List.foldl_cons, h, hc]; exact List.mem_cons_self y ys)
    · exact Or.inr (List.mem_cons_of_mem y h)

lemma foldl_max_init_le (l : List ℝ) (a : ℝ) : a ≤ l.foldl max a := by
  induction l generalizing a with
  | nil => exact le_refl a
  | cons x xs ih => exact le_trans (le_max_left a x) (ih (max a x))

lemma foldl_max_mem_le (l : List ℝ) (a : ℝ) {x : ℝ} (hx : x ∈ l) :
    x ≤ l.foldl max a := by
  induction l generalizing a with
  | nil => cases hx
  | cons y ys ih =>
    rcases List.mem_cons.mp hx with h | h
    · subst h
      exact le_trans (le_max_right a x) (foldl_max_init_le ys (max a x))
    · exact ih (max a y) h

lemma foldl_max_eq_init_or_mem (l : List ℝ) (a : ℝ) :
    l.foldl max a = a ∨ l.foldl max a ∈ l := by
  induction l generalizing a with
  | nil => exact Or.inl rfl
  | cons y ys ih =>
    rcases ih (max a y) with h | h
    · rcases max_choice a y with hc | hc
      · exact Or.inl (by rw [List.foldl_cons, h, hc])
      · exact Or.inr (by rw [List.foldl_cons, h, hc]; exact List.mem_cons_self y ys)
    · exact Or.inr (List.mem_cons_of_mem y h)

lemma listMin_le {l : List ℝ} {x : ℝ} (hx : x ∈ l) : listMin l ≤ x := by
  cases l with
  | nil => cases hx
  | cons y ys =>
    rcases List.mem_cons.mp hx with h | h
    · subst h
      exact foldl_min_le_init ys x
    · exact foldl_min_le_mem ys y h

lemma listMin_mem {l : List ℝ} (h : l ≠ []) : listMin l ∈ l := by
  cases l with
  | nil => exact absurd rfl h
  | cons y ys =>
    rcases foldl_min_eq_init_or_mem ys y with h1 | h1
    · rw [listMin, h1]
      exact List.mem_cons_self y ys
    · exact List.mem_cons_of_mem y h1

lemma le_listMax {l : List ℝ} {x : ℝ} (hx : x ∈ l) : x ≤ listMax l := by
  cases l with
  | nil => cases hx
  | cons y ys =>
    rcases List.mem_cons.mp hx with h | h
    · subst h
      exact foldl_max_init_le ys x
    · exact foldl_max_mem_le ys y h

lemma listMax_mem {l : List ℝ} (h : l ≠ []) : listMax l ∈ l := by
  cases l with
  | nil => exact absurd rfl h
  | cons y ys =>
    rcases foldl_max_eq_init_or_mem ys y with h1 | h1
    · rw [listMax, h1]
      exact List.mem_cons_self y ys
    · exact List.mem_cons_of_mem y h1

lemma indexOfReal_lt_length {l : List ℝ} {a : ℝ} (h : a ∈ l) :
    indexOfReal l a < l.length := by
  induction l with
  | nil => cases h
  | cons x xs ih =>
    rw [indexOfReal]
    by_cases hx : x = a
    · rw [if_pos hx]
      simp
    · rw [if_neg hx]
      have : a ∈ xs := by
        rcases List.mem_cons.mp h with h1 | h1
        · exact absurd h1.symm hx
        · exact h1
      simpa using Nat.succ_lt_succ (ih this)

lemma idxOfMax_lt_length {l : List ℝ} (h : l ≠ []) : idxOfMax l < l.length :=
  indexOfReal_lt_length (listMax_mem h)

/-! ### Cyclic index arithmetic

The ternary index expressions of the polygon face queries:
`i > 0 ? i - 1 : length - 1` and `i < length - 1 ? i + 1 : 0`. -/

/-- Cyclic predecessor index. -/
def cpred (len i : Nat) : Nat := if i > 0 then i - 1 else len - 1

/-- Cyclic successor index. -/
def csucc (len i : Nat) : Nat := if i < len - 1 then i + 1 else 0

lemma cpred_lt {len i : Nat} (hlen : 1 ≤ len) (hi : i < len) :
    cpred len i < len := by
  unfold cpred
  split <;> omega

lemma csucc_cpred {len i : Nat} (hlen : 1 ≤ len) (hi : i < len) :
    csucc len (cpred len i) = i := by
  unfold cpred csucc
  split <;> split <;> omega

/-! ### `BaseRigidBody`

The mutable state of `BaseRigidBody` (its fields), with the methods as
state-passing functions.  `step` is split into the three sequential blocks
of the source method — friction (lines 122-136), angular damping and
orientation integration (lines 137-145), linear integration and force
reset (lines 146-151) — and recomposed in source order. -/

@[ext]
structure BaseRigidBody where
  center : Vec2
  mass : ℝ
  linearVelocity : Vec2
  angularVelocity : ℝ
  orientationAngle : ℝ
  force : Vec2
  isStaticBody : Bool
  staticFrictionCoeff : ℝ
  dynamicFrictionCoeff : ℝ
  frictionEnabled : Bool
  isMovingStaticBody : Bool
  angularDampingFactor : ℝ

namespace BaseRigidBody

/-- The `BaseRigidBody` constructor of `rigidbody.ts`: field initializers
plus constructor body (`angularDampingFactor = 0.005`). -/
def new (center : Vec2) (orientationAngle : ℝ) (mass : ℝ)
    (isStaticBody : Bool) (frictionEnabled : Bool) : BaseRigidBody :=
  { center := center
    mass := mass
    linearVelocity := ⟨0, 0⟩
    angularVelocity := 0
    orientationAngle := orientationAngle
    force := ⟨0, 0⟩
    isStaticBody := isStaticBody
    staticFrictionCoeff := 0.3
    dynamicFrictionCoeff := 0.3
    frictionEnabled := frictionEnabled
    isMovingStaticBody := false
    angularDampingFactor := 0.005 }

/-- The `BaseRigidBody` constructor of the legacy duplicate module
(`angularDampingFactor = 0.001`); otherwise identical. -/
def newLegacy (center : Vec2) (orientationAngle : ℝ) (mass : ℝ)
    (isStaticBody : Bool) (frictionEnabled : Bool) : BaseRigidBody :=
  { new center orientationAngle mass isStaticBody frictionEnabled with
    angularDampingFactor := 0.001 }

/-- `isStatic()`. -/
def isStatic (b : BaseRigidBody) : Bool := b.isStaticBody

/-- `isMovingStatic()`. -/
def isMovingStatic (b : BaseRigidBody) : Bool := b.isMovingStaticBody

/-- `move(delta)`: translates the center unless the body is static. -/
def move (b : BaseRigidBody) (delta : Vec2) : BaseRigidBody :=
  if b.isStaticBody = true then b
  else { b with center := PointCal.addVector b.center delta }

/-- `setMovingStatic(movingStatic)`. -/
def setMovingStatic (b : BaseRigidBody) (movingStatic : Bool) : BaseRigidBody :=
  { b with isMovingStaticBody := movingStatic }

/-- `setLinearVelocity(linearVelocity)`. -/
def setLinearVelocity (b : BaseRigidBody) (v : Vec2) : BaseRigidBody :=
  { b with linearVelocity := v }

/-- The `angularVelocity` setter. -/
def setAngularVelocity (b : BaseRigidBody) (w : ℝ) : BaseRigidBody :=
  { b with angularVelocity := w }

/-- `applyForce(force)`: adds to the accumulator when its magnitude is
non-zero, otherwise replaces it. -/
def applyForce (b : BaseRigidBody) (force : Vec2) : BaseRigidBody :=
  if PointCal.magnitude b.force ≠ 0 then
    { b with force := PointCal.addVector b.force force }
  else
    { b with force := force }

/-- `applyForceInOrientation(force)` for a `Point` argument: rotates the
force by the current orientation, then `applyForce`. -/
def applyForceInOrientation (b : BaseRigidBody) (force : Vec2) : BaseRigidBody :=
  b.applyForce (PointCal.rotatePoint force b.orientationAngle)

/-- Friction block of `step` (lines 122-136): when friction is enabled,
zero the force for a static body or a resting body below the
static-friction threshold, otherwise add the kinetic friction force. -/
def stepFriction (b : BaseRigidBody) : BaseRigidBody :=
  if b.frictionEnabled = true then
    if b.isStaticBody = true ∨
        (b.linearVelocity.x = 0 ∧ b.linearVelocity.y = 0 ∧
         0 ≤ PointCal.magnitude (PointCal.subVector b.force ⟨0, 0⟩) ∧
         PointCal.magnitude b.force < b.staticFrictionCoeff * b.mass * 9.81) then
      { b with force := ⟨0, 0⟩ }
    else
      let kineticFrictionDirection :=
        PointCal.multiplyVectorByScalar (PointCal.unitVector b.linearVelocity) (-1)
      let kineticFriction :=
        PointCal.multiplyVectorByScalar kineticFrictionDirection
          (b.dynamicFrictionCoeff * b.mass * 9.81)
      { b with force := PointCal.addVector b.force kineticFriction }
  else b

/-- The damping term of the angular block (line 137): minus the damping
factor for positive angular velocity, plus it for negative, zero at
zero. -/
def angularDampingTerm (b : BaseRigidBody) : ℝ :=
  if b.angularVelocity ≠ 0 then
    (if b.angularVelocity > 0 then -b.angularDampingFactor else b.angularDampingFactor)
  else 0

/-- Angular block of `step` (lines 137-145): sign-based damping toward
zero with snap-to-zero, then orientation integration with the already
updated angular velocity.  (The two sequential assignments of the source
are written as one record with the post-damping angular velocity named.) -/
def stepAngular (b : BaseRigidBody) (deltaTime : ℝ) : BaseRigidBody :=
  let newAngularVelocity : ℝ :=
    if |b.angularVelocity| < |angularDampingTerm b| then 0
    else b.angularVelocity + angularDampingTerm b
  { b with
    angularVelocity := newAngularVelocity
    orientationAngle := b.orientationAngle + newAngularVelocity * deltaTime }

/-- The damping term of the legacy duplicate's angular block (its line
143): `angularVelocity * (-1 / angularVelocity) * angularDampingFactor`. -/
def angularDampingTermLegacy (b : BaseRigidBody) : ℝ :=
  if b.angularVelocity ≠ 0 then
    b.angularVelocity * (-1 / b.angularVelocity) * b.angularDampingFactor
  else 0

/-- Angular block of the legacy duplicate's `step` (its lines 143-151):
identical to `stepAngular` except for the damping formula. -/
def stepAngularLegacy (b : BaseRigidBody) (deltaTime : ℝ) : BaseRigidBody :=
  let newAngularVelocity : ℝ :=
    if |b.angularVelocity| < |angularDampingTermLegacy b| then 0
    else b.angularVelocity + angularDampingTermLegacy b
  { b with
    angularVelocity := newAngularVelocity
    orientationAngle := b.orientationAngle + newAngularVelocity * deltaTime }

/-- Linear block of `step` (lines 146-151): zero the velocity when it is
smaller than the incoming delta `force*dt/mass`, add the delta, integrate
the position with the updated velocity, reset the force accumulator.
(The sequential assignments of the source are written as one record; the
force and mass read by the delta are unchanged by the velocity zeroing.) -/
def stepLinear (b : BaseRigidBody) (deltaTime : ℝ) : BaseRigidBody :=
  let velocityDelta :=
    PointCal.divideVectorByScalar
      (PointCal.multiplyVectorByScalar b.force deltaTime) b.mass
  let velocityBeforeDelta :=
    if PointCal.magnitude b.linearVelocity < PointCal.magnitude velocityDelta then
      (⟨0, 0⟩ : Vec2)
    else b.linearVelocity
  let newLinearVelocity := PointCal.addVector velocityBeforeDelta velocityDelta
  { b with
    linearVelocity := newLinearVelocity
    center := PointCal.addVector b.center
      (PointCal.multiplyVectorByScalar newLinearVelocity deltaTime)
    force := (⟨0, 0⟩ : Vec2) }

/-- `step(deltaTime)` of `rigidbody.ts`: the three blocks in source order. -/
def step (b : BaseRigidBody) (deltaTime : ℝ) : BaseRigidBody :=
  ((b.stepFriction).stepAngular deltaTime).stepLinear deltaTime

/-- `step(deltaTime)` of the legacy duplicate module: identical except for
the angular damping formula. -/
def stepLegacy (b : BaseRigidBody) (deltaTime : ℝ) : BaseRigidBody :=
  ((b.stepFriction).stepAngularLegacy deltaTime).stepLinear deltaTime

end BaseRigidBody

/-- One externally driven mutation of a body: the operation alphabet for
"any sequence of `applyForce` and `step` calls". -/
inductive BodyOp where
  | applyForce (f : Vec2) : BodyOp
  | step (dt : ℝ) : BodyOp

/-- Runs a sequence of operations against a body, left to right. -/
def BaseRigidBody.runOps (b : BaseRigidBody) : List BodyOp → BaseRigidBody
  | [] => b
  | BodyOp.applyForce f :: rest => (b.applyForce f).runOps rest
  | BodyOp.step dt :: rest => (b.step dt).runOps rest

/-! ### Shapes

`Polygon` and `Circle` extend `BaseRigidBody` with their immutable shape
data.  The polygon face queries use named helpers for the shared local
computations of the source:

* `vertexAt i`     ↝ `vertices[i]` on the absolute-coordinate list,
* `absProjections` ↝ `vertices.map(v => dotProduct(v, collisionNormal))`,
* `maxProjIndex`   ↝ `verticesProjected.indexOf(Math.max(...verticesProjected))`,
* `cpred len i`    ↝ `i > 0 ? i - 1 : vertices.length - 1`,
* `csucc len i`    ↝ `i < vertices.length - 1 ? i + 1 : 0`. -/

/-- One endpoint of a returned face: absolute coordinate plus the original
vertex index (`{coord, index}` in the source). -/
structure FaceEndpoint where
  coord : Vec2
  index : Nat

/-- A face `{startPoint, endPoint}` as returned by `getAdjacentFaces`. -/
structure Face where
  startPoint : FaceEndpoint
  endPoint : FaceEndpoint

/-- An axis-aligned bounding box `{min, max}`. -/
structure Aabb where
  min : Vec2
  max : Vec2

/-- `Polygon`: base body plus the local vertex list.  The constructor
performs no validation of the vertex list. -/
structure Polygon where
  body : BaseRigidBody
  vertices : List Vec2

namespace Polygon

/-- The `Polygon` constructor: forwards to the base constructor and stores
the vertices unchanged. -/
def new (center : Vec2) (vertices : List Vec2) (orientationAngle : ℝ)
    (mass : ℝ) (isStaticFlag : Bool) (frictionEnabled : Bool) : Polygon :=
  ⟨BaseRigidBody.new center orientationAngle mass isStaticFlag frictionEnabled,
   vertices⟩

/-- `getVerticesAbsCoord()`: each local vertex rotated by the orientation
and translated by the center. -/
def getVerticesAbsCoord (p : Polygon) : List Vec2 :=
  p.vertices.map (fun vertex =>
    PointCal.addVector p.body.center
      (PointCal.rotatePoint vertex p.body.orientationAngle))

/-- The projections of the absolute vertices onto a collision normal
(`verticesProjected` in the source). -/
def absProjections (p : Polygon) (collisionNormal : Vec2) : List ℝ :=
  p.getVerticesAbsCoord.map (fun vertex => PointCal.dotProduct vertex collisionNormal)

/-- `maxIndex`: index of the first vertex of maximal projection. -/
def maxProjIndex (p : Polygon) (collisionNormal : Vec2) : Nat :=
  idxOfMax (p.absProjections collisionNormal)

/-- `vertices[i]` on the absolute-coordinate list (the source only indexes
in bounds; out of bounds yields a junk origin point). -/
def vertexAt (p : Polygon) (i : Nat) : Vec2 :=
  p.getVerticesAbsCoord.getD i ⟨0, 0⟩

/-- `get AABB()`: componentwise `Math.min`/`Math.max` over the absolute
vertex coordinates. -/
def AABB (p : Polygon) : Aabb :=
  let points := p.getVerticesAbsCoord
  let xCoords := points.map (fun vertex => vertex.x)
  let yCoords := points.map (fun vertex => vertex.y)
  { min := ⟨listMin xCoords, listMin yCoords⟩
    max := ⟨listMax xCoords, listMax yCoords⟩ }

/-- `getMinMaxProjection(unitvector)`. -/
def getMinMaxProjection (p : Polygon) (unitvector : Vec2) : ℝ × ℝ :=
  (listMin (p.absProjections unitvector), listMax (p.absProjections unitvector))

/-- `significantVertex(collisionNormal)`: the vertex of maximal
projection. -/
def significantVertex (p : Polygon) (collisionNormal : Vec2) : Vec2 :=
  p.vertexAt (p.maxProjIndex collisionNormal)

/-- `getSignificantVertices(collisionNormal)`: the significant edge as a
vertex pair — the tip vertex together with whichever neighbour projects
further along the normal. -/
def getSignificantVertices (p : Polygon) (collisionNormal : Vec2) : List Vec2 :=
  let len := p.getVerticesAbsCoord.length
  let m := p.maxProjIndex collisionNormal
  let prevI := cpred len m
  let nextI := csucc len m
  if PointCal.dotProduct (p.vertexAt prevI) collisionNormal >
      PointCal.dotProduct (p.vertexAt nextI) collisionNormal then
    [p.vertexAt prevI, p.vertexAt m]
  else
    [p.vertexAt m, p.vertexAt nextI]

/-- `getAdjacentFaces(collisionNormal)`: builds, via `push`/`unshift`, the
significant edge together with its two neighbouring edges; the resulting
element order of the source is reproduced literally. -/
def getAdjacentFaces (p : Polygon) (collisionNormal : Vec2) : List Face :=
  let len := p.getVerticesAbsCoord.length
  let m := p.maxProjIndex collisionNormal
  let prevI := cpred len m
  let nextI := csucc len m
  if PointCal.dotProduct (p.vertexAt prevI) collisionNormal >
      PointCal.dotProduct (p.vertexAt nextI) collisionNormal then
    [ ⟨⟨p.vertexAt (cpred len prevI), cpred len prevI⟩, ⟨p.vertexAt prevI, prevI⟩⟩,
      ⟨⟨p.vertexAt m, m⟩, ⟨p.vertexAt nextI, nextI⟩⟩,
      ⟨⟨p.vertexAt prevI, prevI⟩, ⟨p.vertexAt m, m⟩⟩ ]
  else
    [ ⟨⟨p.vertexAt prevI, prevI⟩, ⟨p.vertexAt m, m⟩⟩,
      ⟨⟨p.vertexAt nextI, nextI⟩, ⟨p.vertexAt (csucc len nextI), csucc len nextI⟩⟩,
      ⟨⟨p.vertexAt m, m⟩, ⟨p.vertexAt nextI, nextI⟩⟩ ]

/-- The cyclic edge of the polygon starting at absolute vertex `i`: the
pair of endpoints `(vertices[i], vertices[i+1 mod length])` with their
original indices.  Not a source method — the reference notion of "the
`i`-th edge in vertex order" that the adjacent-face claim is checked
against. -/
def edgeFace (p : Polygon) (i : Nat) : Face :=
  ⟨⟨p.vertexAt i, i⟩,
   ⟨p.vertexAt (csucc p.getVerticesAbsCoord.length i), csucc p.getVerticesAbsCoord.length i⟩⟩

/-- The index of the significant face: the edge from `prev` to the tip
when the previous neighbour projects further, otherwise the edge from the
tip to `next`.  Not a source method — named for the statement of the
adjacent-face claim. -/
def significantFaceIndex (p : Polygon) (collisionNormal : Vec2) : Nat :=
  let len := p.getVerticesAbsCoord.length
  let m := p.maxProjIndex collisionNormal
  let prevI := cpred len m
  let nextI := csucc len m
  if PointCal.dotProduct (p.vertexAt prevI) collisionNormal >
      PointCal.dotProduct (p.vertexAt nextI) collisionNormal then
    prevI
  else
    m

end Polygon

/-- `Circle`: base body plus the radius.  The constructor performs no
validation of the radius. -/
structure Circle where
  body : BaseRigidBody
  radius : ℝ

namespace Circle

/-- The `Circle` constructor: forwards to the base constructor and stores
the radius unchanged. -/
def new (center : Vec2) (radius : ℝ) (orientationAngle : ℝ) (mass : ℝ)
    (isStaticFlag : Bool) (frictionEnabled : Bool) : Circle :=
  ⟨BaseRigidBody.new center orientationAngle mass isStaticFlag frictionEnabled,
   radius⟩

/-- `get AABB()`: center offset by `(radius, radius)` on both sides. -/
def AABB (c : Circle) : Aabb :=
  { min := PointCal.subVector c.body.center ⟨c.radius, c.radius⟩
    max := PointCal.addVector c.body.center ⟨c.radius, c.radius⟩ }

/-- `significantVertex(collisionNormal)`: the point of the circle along
the normal. -/
def significantVertex (c : Circle) (collisionNormal : Vec2) : Vec2 :=
  PointCal.addVector c.body.center
    (PointCal.multiplyVectorByScalar collisionNormal c.radius)

/-- `getAdjacentFaces(collisionNormal)`: always the empty list. -/
def getAdjacentFaces (_c : Circle) (_collisionNormal : Vec2) : List Face := []

end Circle

/-! ### Stage bookkeeping lemmas

Which fields each block of `step` can change. -/

namespace BaseRigidBody

lemma stepFriction_eq (b : BaseRigidBody) :
    b.stepFriction = { b with force := (b.stepFriction).force } := by
  unfold stepFriction
  split
  · split <;> rfl
  · rfl

lemma stepFriction_linearVelocity (b : BaseRigidBody) :
    (b.stepFriction).linearVelocity = b.linearVelocity := by
  rw [stepFriction_eq]

lemma stepFriction_mass (b : BaseRigidBody) :
    (b.stepFriction).mass = b.mass := by
  rw [stepFriction_eq]

lemma stepFriction_center (b : BaseRigidBody) :
    (b.stepFriction).center = b.center := by
  rw [stepFriction_eq]

lemma stepFriction_orientationAngle (b : BaseRigidBody) :
    (b.stepFriction).orientationAngle = b.orientationAngle := by
  rw [stepFriction_eq]

lemma stepFriction_angularVelocity (b : BaseRigidBody) :
    (b.stepFriction).angularVelocity = b.angularVelocity := by
  rw [stepFriction_eq]

lemma stepFriction_isStaticBody (b : BaseRigidBody) :
    (b.stepFriction).isStaticBody = b.isStaticBody := by
  rw [stepFriction_eq]

lemma stepFriction_frictionEnabled (b : BaseRigidBody) :
    (b.stepFriction).frictionEnabled = b.frictionEnabled := by
  rw [stepFriction_eq]

lemma stepFriction_angularDampingFactor (b : BaseRigidBody) :
    (b.stepFriction).angularDampingFactor = b.angularDampingFactor := by
  rw [stepFriction_eq]

lemma stepAngular_eq (b : BaseRigidBody) (dt : ℝ) :
    b.stepAngular dt = { b with
      angularVelocity := (b.stepAngular dt).angularVelocity
      orientationAngle := (b.stepAngular dt).orientationAngle } := rfl

lemma stepAngular_force (b : BaseRigidBody) (dt : ℝ) :
    (b.stepAngular dt).force = b.force := by
  rw [stepAngular_eq]

lemma stepAngular_linearVelocity (b : BaseRigidBody) (dt : ℝ) :
    (b.stepAngular dt).linearVelocity = b.linearVelocity := by
  rw [stepAngular_eq]

lemma stepAngular_mass (b : BaseRigidBody) (dt : ℝ) :
    (b.stepAngular dt).mass = b.mass := by
  rw [stepAngular_eq]

lemma stepAngular_center (b : BaseRigidBody) (dt : ℝ) :
    (b.stepAngular dt).center = b.center := by
  rw [stepAngular_eq]

lemma stepAngular_isStaticBody (b : BaseRigidBody) (dt : ℝ) :
    (b.stepAngular dt).isStaticBody = b.isStaticBody := by
  rw [stepAngular_eq]

lemma stepAngular_frictionEnabled (b : BaseRigidBody) (dt : ℝ) :
    (b.stepAngular dt).frictionEnabled = b.frictionEnabled := by
  rw [stepAngular_eq]

lemma stepLinear_force (b : BaseRigidBody) (dt : ℝ) :
    (b.stepLinear dt).force = ⟨0, 0⟩ := rfl

lemma stepLinear_angularVelocity (b : BaseRigidBody) (dt : ℝ) :
    (b.stepLinear dt).angularVelocity = b.angularVelocity := rfl

lemma stepLinear_orientationAngle (b : BaseRigidBody) (dt : ℝ) :
    (b.stepLinear dt).orientationAngle = b.orientationAngle := rfl

lemma stepLinear_isStaticBody (b : BaseRigidBody) (dt : ℝ) :
    (b.stepLinear dt).isStaticBody = b.isStaticBody := rfl

lemma stepLinear_frictionEnabled (b : BaseRigidBody) (dt : ℝ) :
    (b.stepLinear dt).frictionEnabled = b.frictionEnabled := rfl

lemma stepLinear_mass (b : BaseRigidBody) (dt : ℝ) :
    (b.stepLinear dt).mass = b.mass := rfl

/-- The linear block, velocity field: zero-then-add when the incoming
delta exceeds the current speed, otherwise plain add. -/
lemma stepLinear_linearVelocity (b : BaseRigidBody) (dt : ℝ) :
    (b.stepLinear dt).linearVelocity =
      (if PointCal.magnitude b.linearVelocity <
          PointCal.magnitude (PointCal.divideVectorByScalar
            (PointCal.multiplyVectorByScalar b.force dt) b.mass) then
        PointCal.divideVectorByScalar (PointCal.multiplyVectorByScalar b.force dt) b.mass
      else
        PointCal.addVector b.linearVelocity
          (PointCal.divideVectorByScalar (PointCal.multiplyVectorByScalar b.force dt) b.mass)) := by
  show PointCal.addVector
      (if PointCal.magnitude b.linearVelocity <
          PointCal.magnitude (PointCal.divideVectorByScalar
            (PointCal.multiplyVectorByScalar b.force dt) b.mass) then
        (⟨0, 0⟩ : Vec2)
      else b.linearVelocity)
      (PointCal.divideVectorByScalar (PointCal.multiplyVectorByScalar b.force dt) b.mass) = _
  split
  · exact PointCal.addVector_zero_left _
  · rfl

/-- `applyForce` always amounts to vector addition on the accumulator:
the replace branch only fires when the accumulator is the zero vector. -/
lemma applyForce_eq (b : BaseRigidBody) (f : Vec2) :
    b.applyForce f = { b with force := PointCal.addVector b.force f } := by
  unfold applyForce
  split
  · rfl
  · have h0 : PointCal.magnitude b.force = 0 := by
      by_contra hc
      exact (by assumption : ¬PointCal.magnitude b.force ≠ 0) hc
    have hz : b.force = ⟨0, 0⟩ := (PointCal.magnitude_eq_zero_iff b.force).mp h0
    rw [hz, PointCal.addVector_zero_left]

end BaseRigidBody

/-! ### Claims -/

/-- **C9.** After every `step(deltaTime)` call on any body, the pending
force accumulator is exactly `(0, 0)`, whatever state the body was in —
in particular however many `applyForce` / `applyForceInOrientation` calls
preceded the step. -/
theorem c9_force_reset (b : BaseRigidBody) (dt : ℝ) :
    (b.step dt).force = ⟨0, 0⟩ := rfl

/-- **C10.** `applyForce(f)` always leaves the accumulator equal to its
previous value plus `f` (the replace-on-zero-magnitude special case is
plain addition, since zero magnitude forces the accumulator to be the
zero vector), so applying `f1` then `f2` equals a single
`applyForce(f1 + f2)` — on the whole body state. -/
theorem c10_applyForce_additive :
    (∀ (b : BaseRigidBody) (f : Vec2),
      (b.applyForce f).force = PointCal.addVector b.force f) ∧
    (∀ (b : BaseRigidBody) (f1 f2 : Vec2),
      (b.applyForce f1).applyForce f2 = b.applyForce (PointCal.addVector f1 f2)) := by
  constructor
  · intro b f
    rw [BaseRigidBody.applyForce_eq]
  · intro b f1 f2
    simp only [BaseRigidBody.applyForce_eq, PointCal.addVector_assoc]

/-- **C2, counterexample.** A `Circle` of radius `-1` and a `Polygon` with
only two vertices are both constructed successfully, with the invalid
shape data stored unchanged — construction does not fail, so no
`InvalidShape` error is raised at construction time. -/
theorem c2_counterexample :
    (Circle.new ⟨0, 0⟩ (-1) 0 50 false true).radius = -1 ∧ ((-1 : ℝ) ≤ 0) ∧
    (Polygon.new ⟨0, 0⟩ [⟨0, 0⟩, ⟨1, 0⟩] 0 50 false true).vertices.length = 2 ∧
    (2 < 3) := by
  refine ⟨rfl, by norm_num, rfl, by norm_num⟩

/-- **C2, amended.** The `Polygon` and `Circle` constructors perform no
shape validation at all: every radius (including zero and negative ones)
and every vertex list (including lists of fewer than three vertices) is
accepted and stored unchanged. -/
theorem c2_no_validation :
    (∀ (center : Vec2) (radius orientationAngle mass : ℝ)
       (isStaticFlag frictionEnabled : Bool),
      (Circle.new center radius orientationAngle mass
        isStaticFlag frictionEnabled).radius = radius) ∧
    (∀ (center : Vec2) (vertices : List Vec2) (orientationAngle mass : ℝ)
       (isStaticFlag frictionEnabled : Bool),
      (Polygon.new center vertices orientationAngle mass
        isStaticFlag frictionEnabled).vertices = vertices) :=
  ⟨fun _ _ _ _ _ _ => rfl, fun _ _ _ _ _ _ => rfl⟩

/-- **C6.** In `step(deltaTime)`, with the post-friction accumulated force
`F`: when the current speed is strictly smaller than the magnitude of the
velocity delta `F/mass * deltaTime`, the velocity is zeroed before the
delta is added, so the post-update velocity is exactly the delta;
otherwise it is the old velocity plus the delta. -/
theorem c6_velocity_update (b : BaseRigidBody) (dt : ℝ) :
    (b.step dt).linearVelocity =
      (if PointCal.magnitude b.linearVelocity <
          PointCal.magnitude (PointCal.multiplyVectorByScalar
            (PointCal.divideVectorByScalar (b.stepFriction).force b.mass) dt) then
        PointCal.multiplyVectorByScalar
          (PointCal.divideVectorByScalar (b.stepFriction).force b.mass) dt
      else
        PointCal.addVector b.linearVelocity
          (PointCal.multiplyVectorByScalar
            (PointCal.divideVectorByScalar (b.stepFriction).force b.mass) dt)) := by
  unfold BaseRigidBody.step
  rw [BaseRigidBody.stepLinear_linearVelocity, BaseRigidBody.stepAngular_linearVelocity,
    BaseRigidBody.stepFriction_linearVelocity, BaseRigidBody.stepAngular_force,
    BaseRigidBody.stepAngular_mass, BaseRigidBody.stepFriction_mass,
    PointCal.div_mul_swap]

namespace BaseRigidBody

/-- With friction disabled the friction block is the identity. -/
lemma stepFriction_of_disabled (b : BaseRigidBody) (h : b.frictionEnabled = false) :
    b.stepFriction = b := by
  unfold stepFriction
  rw [if_neg (by simp [h])]

/-- With friction enabled and a static body, the friction block just
zeroes the force. -/
lemma stepFriction_of_static (b : BaseRigidBody) (hf : b.frictionEnabled = true)
    (hs : b.isStaticBody = true) :
    b.stepFriction = { b with force := ⟨0, 0⟩ } := by
  unfold stepFriction
  rw [if_pos hf, if_pos (Or.inl hs)]

/-- At zero angular velocity the angular block is the identity. -/
lemma stepAngular_of_zero (b : BaseRigidBody) (dt : ℝ) (h : b.angularVelocity = 0) :
    b.stepAngular dt = b := by
  rcases b with ⟨ce, ma, lv, av, oa, fo, st, sfc, dfc, fe, ms, adf⟩
  simp only at h
  subst h
  unfold stepAngular angularDampingTerm
  norm_num

end BaseRigidBody

/-- **C3, counterexample.** A moving-static body (`isMovingStatic()` true)
is not exempt from force integration in `step`: starting at rest with an
accumulated force of `(100, 0)`, mass `50` and friction disabled, one
`step(1)` changes its linear velocity from `(0, 0)` to `(2, 0)`. -/
theorem c3_counterexample :
    ((((BaseRigidBody.new ⟨0, 0⟩ 0 50 false false).setMovingStatic true).applyForce
        ⟨100, 0⟩).isMovingStaticBody = true) ∧
    ((((BaseRigidBody.new ⟨0, 0⟩ 0 50 false false).setMovingStatic true).applyForce
        ⟨100, 0⟩).linearVelocity = ⟨0, 0⟩) ∧
    (((((BaseRigidBody.new ⟨0, 0⟩ 0 50 false false).setMovingStatic true).applyForce
        ⟨100, 0⟩).step 1).linearVelocity = ⟨2, 0⟩) ∧
    (⟨2, 0⟩ : Vec2) ≠ (⟨0, 0⟩ : Vec2) := by
  have hb : ((BaseRigidBody.new ⟨0, 0⟩ 0 50 false false).setMovingStatic true).applyForce
      ⟨100, 0⟩ =
      { BaseRigidBody.new ⟨0, 0⟩ 0 50 false false with
        isMovingStaticBody := true
        force := ⟨100, 0⟩ } := by
    rw [BaseRigidBody.applyForce_eq]
    congr 1
    exact PointCal.addVector_zero_left _
  refine ⟨by rw [hb], by rw [hb]; rfl, ?_, by intro h; injection h with hx hy; norm_num at hx⟩
  rw [hb]
  unfold BaseRigidBody.step
  rw [BaseRigidBody.stepFriction_of_disabled _ rfl, BaseRigidBody.stepAngular_of_zero _ _ rfl,
    BaseRigidBody.stepLinear_linearVelocity]
  have hdelta : PointCal.divideVectorByScalar
      (PointCal.multiplyVectorByScalar
        ({ BaseRigidBody.new ⟨0, 0⟩ 0 50 false false with
           isMovingStaticBody := true
           force := (⟨100, 0⟩ : Vec2) } : BaseRigidBody).force 1)
      ({ BaseRigidBody.new ⟨0, 0⟩ 0 50 false false with
         isMovingStaticBody := true
         force := (⟨100, 0⟩ : Vec2) } : BaseRigidBody).mass = ⟨2, 0⟩ := by
    show PointCal.divideVectorByScalar (PointCal.multiplyVectorByScalar ⟨100, 0⟩ 1) 50 = _
    ext <;> norm_num [PointCal.divideVectorByScalar, PointCal.multiplyVectorByScalar]
  rw [hdelta]
  have hv : ({ BaseRigidBody.new ⟨0, 0⟩ 0 50 false false with
      isMovingStaticBody := true
      force := (⟨100, 0⟩ : Vec2) } : BaseRigidBody).linearVelocity = ⟨0, 0⟩ := rfl
  rw [hv, PointCal.magnitude_zero, PointCal.magnitude_axis 2 (by norm_num),
    if_pos (by norm_num : (0 : ℝ) < 2)]

/-- **C3, amended.** A body with `isStatic()` true **and friction
enabled** has its linear velocity unchanged by `step`, whatever force is
accumulated and whatever (positive) mass is stored: the friction block
zeroes the force before the integration, so no `force/mass` division can
affect the velocity.  (Moving-static bodies, and static bodies with
friction disabled, are not exempt — see the counterexample.  Positive
mass rules out the division-by-zero state in which the floating-point
program would produce NaN where a real-number model reads `0/0 = 0`.) -/
theorem c3_static_velocity_unchanged (b : BaseRigidBody) (dt : ℝ)
    (hs : b.isStaticBody = true) (hf : b.frictionEnabled = true)
    (hm : 0 < b.mass) :
    (b.step dt).linearVelocity = b.linearVelocity := by
  unfold BaseRigidBody.step
  rw [BaseRigidBody.stepLinear_linearVelocity, BaseRigidBody.stepAngular_linearVelocity,
    BaseRigidBody.stepFriction_linearVelocity, BaseRigidBody.stepAngular_force,
    BaseRigidBody.stepFriction_of_static b hf hs]
  show (if PointCal.magnitude b.linearVelocity <
      PointCal.magnitude (PointCal.divideVectorByScalar
        (PointCal.multiplyVectorByScalar ⟨0, 0⟩ dt) _) then _ else _) = _
  rw [PointCal.multiplyVectorByScalar_zero_vec, PointCal.divideVectorByScalar_zero_vec,
    PointCal.magnitude_zero, if_neg (not_lt.mpr (PointCal.magnitude_nonneg _)),
    PointCal.addVector_zero_right]

/-- **C3, witness.** The amended statement applied to a freshly
constructed static body with friction enabled. -/
theorem c3_witness :
    ((BaseRigidBody.new ⟨0, 0⟩ 0 50 true true).step 1).linearVelocity =
      (BaseRigidBody.new ⟨0, 0⟩ 0 50 true true).linearVelocity :=
  c3_static_velocity_unchanged (BaseRigidBody.new ⟨0, 0⟩ 0 50 true true) 1 rfl rfl
    (by norm_num [BaseRigidBody.new])

namespace PointCal

lemma multiplyVectorByScalar_neg_one (v : Vec2) (c : ℝ) :
    multiplyVectorByScalar (multiplyVectorByScalar v (-1)) c =
      multiplyVectorByScalar v (-c) := by
  ext <;> simp [multiplyVectorByScalar]

end PointCal

/-- The concrete input of the C4 counterexample: a fresh friction-enabled
dynamic body with an accumulated force of `(200, 0)`. -/
def c4Body : BaseRigidBody :=
  (BaseRigidBody.new ⟨0, 0⟩ 0 50 false true).applyForce ⟨200, 0⟩

lemma c4Body_eq :
    c4Body = ⟨⟨0, 0⟩, 50, ⟨0, 0⟩, 0, 0, ⟨200, 0⟩, false, 0.3, 0.3, true, false, 0.005⟩ := by
  ext <;>
    simp [c4Body, BaseRigidBody.applyForce_eq, BaseRigidBody.new, PointCal.addVector]

lemma magnitude_200 : PointCal.magnitude ⟨200, 0⟩ = 200 :=
  PointCal.magnitude_axis 200 (by norm_num)

/-- **C4, counterexample.** With friction enabled, a body at rest whose
accumulated force is *at or above* the static-friction threshold falls
into the "otherwise" branch, but the kinetic friction it adds is the zero
vector (the normalized zero velocity is the zero vector), not a force of
magnitude `dynamicFrictionCoeff * mass * 9.81`: for `c4Body` (force
`(200, 0)`, mass `50`, coefficients `0.3`, at rest), the force is left at
`(200, 0)` — the added friction has magnitude `0`, while
`dynamicFrictionCoeff * mass * 9.81 = 147.15 ≠ 0`. -/
theorem c4_counterexample :
    c4Body.frictionEnabled = true ∧
    c4Body.isStaticBody = false ∧
    c4Body.linearVelocity = ⟨0, 0⟩ ∧
    ¬ (PointCal.magnitude c4Body.force <
        c4Body.staticFrictionCoeff * c4Body.mass * 9.81) ∧
    (c4Body.stepFriction).force = c4Body.force ∧
    PointCal.magnitude
      (PointCal.subVector (c4Body.stepFriction).force c4Body.force) = 0 ∧
    c4Body.dynamicFrictionCoeff * c4Body.mass * 9.81 ≠ 0 := by
  rw [c4Body_eq]
  have hthresh : ¬ (PointCal.magnitude
      ((⟨⟨0, 0⟩, 50, ⟨0, 0⟩, 0, 0, ⟨200, 0⟩, false, 0.3, 0.3, true, false, 0.005⟩ :
        BaseRigidBody)).force <
      ((⟨⟨0, 0⟩, 50, ⟨0, 0⟩, 0, 0, ⟨200, 0⟩, false, 0.3, 0.3, true, false, 0.005⟩ :
        BaseRigidBody)).staticFrictionCoeff *
      ((⟨⟨0, 0⟩, 50, ⟨0, 0⟩, 0, 0, ⟨200, 0⟩, false, 0.3, 0.3, true, false, 0.005⟩ :
        BaseRigidBody)).mass * 9.81) := by
    show ¬ (PointCal.magnitude ⟨200, 0⟩ < 0.3 * 50 * 9.81)
    rw [magnitude_200]
    norm_num
  have hsf : ((⟨⟨0, 0⟩, 50, ⟨0, 0⟩, 0, 0, ⟨200, 0⟩, false, 0.3, 0.3, true, false, 0.005⟩ :
      BaseRigidBody).stepFriction).force = ⟨200, 0⟩ := by
    unfold BaseRigidBody.stepFriction
    split_ifs with h1 h2
    · exfalso
      rcases h2 with h | h
      · simp at h
      · exact hthresh h.2.2.2
    · show PointCal.addVector ⟨200, 0⟩
        (PointCal.multiplyVectorByScalar
          (PointCal.multiplyVectorByScalar (PointCal.unitVector ⟨0, 0⟩) (-1))
          (0.3 * 50 * 9.81)) = ⟨200, 0⟩
      rw [PointCal.unitVector_zero, PointCal.multiplyVectorByScalar_zero_vec,
        PointCal.multiplyVectorByScalar_zero_vec, PointCal.addVector_zero_right]
    · exact absurd rfl h1
  refine ⟨rfl, rfl, rfl, hthresh, hsf, ?_, ?_⟩
  · rw [hsf]
    show PointCal.magnitude (PointCal.subVector ⟨200, 0⟩ ⟨200, 0⟩) = 0
    rw [PointCal.subVector_self, PointCal.magnitude_zero]
  · show (0.3 : ℝ) * 50 * 9.81 ≠ 0
    norm_num

/-- **C4, amended.** When friction is enabled, the friction block zeroes
the force exactly when the body is static, or its velocity is exactly
`(0, 0)` and the force magnitude is below
`staticFrictionCoeff * mass * 9.81`; otherwise it adds
`dynamicFrictionCoeff * mass * 9.81` times the *negated normalized
velocity* — a vector of that magnitude opposite the velocity when the
velocity is non-zero, and the zero vector when the velocity is zero
(normalizing zero yields zero). -/
theorem c4_friction_stage (b : BaseRigidBody) (hf : b.frictionEnabled = true) :
    (b.stepFriction).force =
      (if b.isStaticBody = true ∨
          (b.linearVelocity.x = 0 ∧ b.linearVelocity.y = 0 ∧
           PointCal.magnitude b.force < b.staticFrictionCoeff * b.mass * 9.81) then
        (⟨0, 0⟩ : Vec2)
      else
        PointCal.addVector b.force
          (PointCal.multiplyVectorByScalar (PointCal.unitVector b.linearVelocity)
            (-(b.dynamicFrictionCoeff * b.mass * 9.81)))) := by
  unfold BaseRigidBody.stepFriction
  rw [if_pos hf]
  by_cases hc : b.isStaticBody = true ∨
      (b.linearVelocity.x = 0 ∧ b.linearVelocity.y = 0 ∧
       PointCal.magnitude b.force < b.staticFrictionCoeff * b.mass * 9.81)
  · rw [if_pos ?_, if_pos hc]
    rcases hc with h | h
    · exact Or.inl h
    · exact Or.inr ⟨h.1, h.2.1, PointCal.magnitude_nonneg _, h.2.2⟩
  · rw [if_neg ?_, if_neg hc]
    · show PointCal.addVector b.force
          (PointCal.multiplyVectorByScalar
            (PointCal.multiplyVectorByScalar (PointCal.unitVector b.linearVelocity) (-1))
            (b.dynamicFrictionCoeff * b.mass * 9.81)) = _
      rw [PointCal.multiplyVectorByScalar_neg_one]
    · intro h
      rcases h with h | h
      · exact hc (Or.inl h)
      · exact hc (Or.inr ⟨h.1, h.2.1, h.2.2.2⟩)

/-- **C4, witness.** The amended statement applied to a freshly
constructed static body with friction enabled: its force is zeroed. -/
theorem c4_witness :
    ((BaseRigidBody.new ⟨0, 0⟩ 0 50 true true).stepFriction).force = ⟨0, 0⟩ := by
  rw [c4_friction_stage (BaseRigidBody.new ⟨0, 0⟩ 0 50 true true) rfl,
    if_pos (Or.inl (show (BaseRigidBody.new ⟨0, 0⟩ 0 50 true true).isStaticBody = true
      from rfl))]

namespace BaseRigidBody

lemma stepLinear_center (b : BaseRigidBody) (dt : ℝ) :
    (b.stepLinear dt).center = PointCal.addVector b.center
      (PointCal.multiplyVectorByScalar (b.stepLinear dt).linearVelocity dt) := rfl

/-- With a zero force accumulator the linear block leaves the velocity
unchanged: the delta is zero and the zeroing guard cannot fire. -/
lemma stepLinear_linearVelocity_of_zero_force (b : BaseRigidBody) (dt : ℝ)
    (hf : b.force = ⟨0, 0⟩) :
    (b.stepLinear dt).linearVelocity = b.linearVelocity := by
  rw [stepLinear_linearVelocity, hf, PointCal.multiplyVectorByScalar_zero_vec,
    PointCal.divideVectorByScalar_zero_vec, PointCal.magnitude_zero,
    if_neg (not_lt.mpr (PointCal.magnitude_nonneg _)), PointCal.addVector_zero_right]

/-- At rest with no force, the linear block leaves the center unchanged. -/
lemma stepLinear_center_of_rest (b : BaseRigidBody) (dt : ℝ)
    (hv : b.linearVelocity = ⟨0, 0⟩) (hf : b.force = ⟨0, 0⟩) :
    (b.stepLinear dt).center = b.center := by
  rw [stepLinear_center, stepLinear_linearVelocity_of_zero_force b dt hf, hv,
    PointCal.multiplyVectorByScalar_zero_vec, PointCal.addVector_zero_right]

end BaseRigidBody

/-- The configurations in which a static body can actually stay put under
`step`: static, friction enabled (so the friction block zeroes the force),
at rest, and of positive mass (ruling out the `0/0` mass division that the
floating-point program would turn into NaN). -/
def StaticRest (b : BaseRigidBody) : Prop :=
  b.isStaticBody = true ∧ b.frictionEnabled = true ∧
  b.linearVelocity = ⟨0, 0⟩ ∧ b.angularVelocity = 0 ∧ 0 < b.mass

lemma applyForce_staticRest (b : BaseRigidBody) (f : Vec2) (h : StaticRest b) :
    (b.applyForce f).center = b.center ∧
    (b.applyForce f).orientationAngle = b.orientationAngle ∧
    StaticRest (b.applyForce f) := by
  rw [BaseRigidBody.applyForce_eq]
  exact ⟨rfl, rfl, h⟩

lemma step_staticRest (b : BaseRigidBody) (dt : ℝ) (h : StaticRest b) :
    (b.step dt).center = b.center ∧
    (b.step dt).orientationAngle = b.orientationAngle ∧
    StaticRest (b.step dt) := by
  obtain ⟨hs, hf, hv, hw, hm⟩ := h
  have hb1 : b.stepFriction = { b with force := ⟨0, 0⟩ } :=
    BaseRigidBody.stepFriction_of_static b hf hs
  have hb2 : (b.stepFriction).stepAngular dt = b.stepFriction :=
    BaseRigidBody.stepAngular_of_zero _ dt (by rw [hb1]; exact hw)
  unfold BaseRigidBody.step
  rw [hb2, hb1]
  refine ⟨?_, ?_, ?_, ?_, ?_, ?_, ?_⟩
  · exact BaseRigidBody.stepLinear_center_of_rest _ dt hv rfl
  · exact BaseRigidBody.stepLinear_orientationAngle _ dt
  · rw [BaseRigidBody.stepLinear_isStaticBody]; exact hs
  · rw [BaseRigidBody.stepLinear_frictionEnabled]; exact hf
  · rw [BaseRigidBody.stepLinear_linearVelocity_of_zero_force _ _ rfl]; exact hv
  · rw [BaseRigidBody.stepLinear_angularVelocity]; exact hw
  · rw [BaseRigidBody.stepLinear_mass]; exact hm

lemma runOps_staticRest (ops : List BodyOp) :
    ∀ (b : BaseRigidBody), StaticRest b →
      (b.runOps ops).center = b.center ∧
      (b.runOps ops).orientationAngle = b.orientationAngle ∧
      StaticRest (b.runOps ops) := by
  induction ops with
  | nil => exact fun b h => ⟨rfl, rfl, h⟩
  | cons op rest ih =>
    intro b h
    cases op with
    | applyForce f =>
      have h1 := applyForce_staticRest b f h
      have h2 := ih (b.applyForce f) h1.2.2
      exact ⟨by rw [show b.runOps (BodyOp.applyForce f :: rest) =
          (b.applyForce f).runOps rest from rfl, h2.1, h1.1],
        by rw [show b.runOps (BodyOp.applyForce f :: rest) =
          (b.applyForce f).runOps rest from rfl, h2.2.1, h1.2.1],
        h2.2.2⟩
    | step dt =>
      have h1 := step_staticRest b dt h
      have h2 := ih (b.step dt) h1.2.2
      exact ⟨by rw [show b.runOps (BodyOp.step dt :: rest) =
          (b.step dt).runOps rest from rfl, h2.1, h1.1],
        by rw [show b.runOps (BodyOp.step dt :: rest) =
          (b.step dt).runOps rest from rfl, h2.2.1, h1.2.1],
        h2.2.2⟩

/-- **C1, counterexample.** A static body with friction *disabled* does
move under `applyForce` then `step`: with center `(0, 0)`, mass `50`, and
an applied force `(100, 0)`, one `step(1)` moves the center to `(2, 0)` —
the commented-out early return in `step` means a static body is only
exempt from integration through the friction block. -/
theorem c1_counterexample :
    (BaseRigidBody.new ⟨0, 0⟩ 0 50 true false).isStaticBody = true ∧
    (BaseRigidBody.new ⟨0, 0⟩ 0 50 true false).center = ⟨0, 0⟩ ∧
    ((BaseRigidBody.new ⟨0, 0⟩ 0 50 true false).runOps
      [BodyOp.applyForce ⟨100, 0⟩, BodyOp.step 1]).center = ⟨2, 0⟩ ∧
    (⟨2, 0⟩ : Vec2) ≠ (⟨0, 0⟩ : Vec2) := by
  have hb : (BaseRigidBody.new ⟨0, 0⟩ 0 50 true false).applyForce ⟨100, 0⟩ =
      ⟨⟨0, 0⟩, 50, ⟨0, 0⟩, 0, 0, ⟨100, 0⟩, true, 0.3, 0.3, false, false, 0.005⟩ := by
    ext <;>
      simp [BaseRigidBody.applyForce_eq, BaseRigidBody.new, PointCal.addVector]
  refine ⟨rfl, rfl, ?_, by intro h; injection h with hx hy; norm_num at hx⟩
  show (((BaseRigidBody.new ⟨0, 0⟩ 0 50 true false).applyForce ⟨100, 0⟩).step 1).center
      = ⟨2, 0⟩
  rw [hb]
  unfold BaseRigidBody.step
  rw [BaseRigidBody.stepFriction_of_disabled _ rfl,
    BaseRigidBody.stepAngular_of_zero _ _ rfl, BaseRigidBody.stepLinear_center,
    BaseRigidBody.stepLinear_linearVelocity]
  show PointCal.addVector ⟨0, 0⟩
      (PointCal.multiplyVectorByScalar
        (if PointCal.magnitude (⟨0, 0⟩ : Vec2) <
            PointCal.magnitude (PointCal.divideVectorByScalar
              (PointCal.multiplyVectorByScalar ⟨100, 0⟩ 1) 50) then
          PointCal.divideVectorByScalar (PointCal.multiplyVectorByScalar ⟨100, 0⟩ 1) 50
        else
          PointCal.addVector ⟨0, 0⟩
            (PointCal.divideVectorByScalar (PointCal.multiplyVectorByScalar ⟨100, 0⟩ 1) 50)) 1)
      = ⟨2, 0⟩
  rw [PointCal.addVector_zero_left]
  have hdelta : PointCal.divideVectorByScalar
      (PointCal.multiplyVectorByScalar (⟨100, 0⟩ : Vec2) 1) 50 = (⟨2, 0⟩ : Vec2) := by
    ext <;> norm_num [PointCal.divideVectorByScalar, PointCal.multiplyVectorByScalar]
  rw [hdelta, PointCal.addVector_zero_left, ite_self]
  ext <;> norm_num [PointCal.multiplyVectorByScalar]

/-- **C1, amended.** A static body with friction enabled, zero linear and
angular velocity, and positive mass keeps its `center` and
`orientationAngle` unchanged under every sequence of `applyForce` and
`step` calls (the friction block zeroes the force of a static body before
any integration).  Static bodies with friction disabled are not pose
invariant — see the counterexample. -/
theorem c1_static_pose_invariance (b : BaseRigidBody) (ops : List BodyOp)
    (hs : b.isStaticBody = true) (hf : b.frictionEnabled = true)
    (hv : b.linearVelocity = ⟨0, 0⟩) (hw : b.angularVelocity = 0)
    (hm : 0 < b.mass) :
    (b.runOps ops).center = b.center ∧
    (b.runOps ops).orientationAngle = b.orientationAngle := by
  have h := runOps_staticRest ops b ⟨hs, hf, hv, hw, hm⟩
  exact ⟨h.1, h.2.1⟩

/-- **C1, witness.** The amended statement applied to a fresh static
friction-enabled body and the sequence `applyForce (5,0); step 1`. -/
theorem c1_witness :
    ((BaseRigidBody.new ⟨1, 2⟩ 0.5 50 true true).runOps
      [BodyOp.applyForce ⟨5, 0⟩, BodyOp.step 1]).center = ⟨1, 2⟩ ∧
    ((BaseRigidBody.new ⟨1, 2⟩ 0.5 50 true true).runOps
      [BodyOp.applyForce ⟨5, 0⟩, BodyOp.step 1]).orientationAngle = 0.5 :=
  c1_static_pose_invariance (BaseRigidBody.new ⟨1, 2⟩ 0.5 50 true true)
    [BodyOp.applyForce ⟨5, 0⟩, BodyOp.step 1] rfl rfl rfl rfl
    (by norm_num [BaseRigidBody.new])

lemma angularDampingTermLegacy_at_neg_one :
    BaseRigidBody.angularDampingTermLegacy
      (⟨⟨0, 0⟩, 50, ⟨0, 0⟩, -1, 0, ⟨0, 0⟩, false, 0.3, 0.3, false, false, 0.001⟩ :
        BaseRigidBody) = -0.001 := by
  unfold BaseRigidBody.angularDampingTermLegacy
  split_ifs with h
  · show (-1 : ℝ) * (-1 / -1) * 0.001 = -0.001
    norm_num
  · exfalso
    apply h
    show (-1 : ℝ) ≠ 0
    norm_num

/-- **C5.** In the legacy duplicate module the damping increment is
`angularVelocity * (-1 / angularVelocity) * angularDampingFactor`, which
equals `-angularDampingFactor` for *every* non-zero angular velocity —
for a negative angular velocity it pushes the velocity *away* from zero
instead of toward it.  Concretely, at `angularVelocity = -1` (damping
factor `0.001`), one `stepLegacy` yields `-1.001`: the magnitude grows to
`1.001`, whereas the claimed update `max(0, |ω| - d)` would give `0.999`.
(The `rigidbody.ts` damping block computes the sign correctly; see
`step_angular_damping_symmetric` below.) -/
theorem c5_legacy_damping_divergence :
    ((((BaseRigidBody.newLegacy ⟨0, 0⟩ 0 50 false false).setAngularVelocity
        (-1)).stepLegacy 1).angularVelocity = -1.001) ∧
    (((BaseRigidBody.newLegacy ⟨0, 0⟩ 0 50 false false).setAngularVelocity
        (-1)).angularVelocity = -1) ∧
    (((BaseRigidBody.newLegacy ⟨0, 0⟩ 0 50 false false).setAngularVelocity
        (-1)).angularDampingFactor = 0.001) ∧
    (|(-1.001 : ℝ)| = |(-1 : ℝ)| + 0.001) ∧
    (max 0 (|(-1 : ℝ)| - 0.001) = 0.999) ∧
    (|(-1.001 : ℝ)| ≠ max 0 (|(-1 : ℝ)| - 0.001)) := by
  have hb : (BaseRigidBody.newLegacy ⟨0, 0⟩ 0 50 false false).setAngularVelocity (-1) =
      ⟨⟨0, 0⟩, 50, ⟨0, 0⟩, -1, 0, ⟨0, 0⟩, false, 0.3, 0.3, false, false, 0.001⟩ := by
    ext <;> simp [BaseRigidBody.setAngularVelocity, BaseRigidBody.newLegacy,
      BaseRigidBody.new]
  rw [hb]
  have habs1 : |(-1.001 : ℝ)| = 1.001 := by
    rw [abs_of_nonpos (by norm_num)]
    norm_num
  have habs2 : |(-1 : ℝ)| = 1 := by
    rw [abs_of_nonpos (by norm_num)]
    norm_num
  refine ⟨?_, rfl, rfl, by rw [habs1, habs2]; norm_num,
    by rw [habs2]; norm_num, by rw [habs1, habs2]; norm_num⟩
  unfold BaseRigidBody.stepLegacy
  rw [BaseRigidBody.stepFriction_of_disabled _ rfl,
    BaseRigidBody.stepLinear_angularVelocity]
  show (if |(-1 : ℝ)| < |BaseRigidBody.angularDampingTermLegacy
        (⟨⟨0, 0⟩, 50, ⟨0, 0⟩, -1, 0, ⟨0, 0⟩, false, 0.3, 0.3, false, false, 0.001⟩ :
          BaseRigidBody)| then (0 : ℝ)
      else (-1) + BaseRigidBody.angularDampingTermLegacy
        (⟨⟨0, 0⟩, 50, ⟨0, 0⟩, -1, 0, ⟨0, 0⟩, false, 0.3, 0.3, false, false, 0.001⟩ :
          BaseRigidBody)) = -1.001
  rw [angularDampingTermLegacy_at_neg_one, habs2,
    abs_of_nonpos (by norm_num : (-0.001 : ℝ) ≤ 0)]
  norm_num

/-- The post-step angular velocity of the `rigidbody.ts` integrator, with
the friction-block bookkeeping stripped away. -/
lemma step_angularVelocity_eq (b : BaseRigidBody) (dt : ℝ) :
    (b.step dt).angularVelocity =
      (if |b.angularVelocity| <
          |(if b.angularVelocity ≠ 0 then
              (if b.angularVelocity > 0 then -b.angularDampingFactor
               else b.angularDampingFactor)
            else 0)| then 0
       else b.angularVelocity +
          (if b.angularVelocity ≠ 0 then
            (if b.angularVelocity > 0 then -b.angularDampingFactor
             else b.angularDampingFactor)
          else 0)) := by
  unfold BaseRigidBody.step
  rw [BaseRigidBody.stepLinear_angularVelocity]
  show (if |(b.stepFriction).angularVelocity| <
        |BaseRigidBody.angularDampingTerm b.stepFriction| then (0 : ℝ)
      else (b.stepFriction).angularVelocity +
        BaseRigidBody.angularDampingTerm b.stepFriction) = _
  unfold BaseRigidBody.angularDampingTerm
  rw [BaseRigidBody.stepFriction_angularVelocity,
    BaseRigidBody.stepFriction_angularDampingFactor]

/-- The `rigidbody.ts` damping block, by contrast, is symmetric: for a
non-negative damping factor the post-step angular speed is exactly
`max (0, |ω| - d)` and the sign never flips.  (Not itself one of the
checked claims — recorded to document that the divergence of
`c5_legacy_damping_divergence` is specific to the legacy module.) -/
lemma step_angular_damping_symmetric (b : BaseRigidBody) (dt : ℝ)
    (hd : 0 ≤ b.angularDampingFactor) :
    |(b.step dt).angularVelocity| =
      max 0 (|b.angularVelocity| - b.angularDampingFactor) ∧
    (0 ≤ b.angularVelocity → 0 ≤ (b.step dt).angularVelocity) ∧
    (b.angularVelocity ≤ 0 → (b.step dt).angularVelocity ≤ 0) := by
  rw [step_angularVelocity_eq]
  rcases lt_trichotomy b.angularVelocity 0 with hneg | hzero | hpos
  · rw [if_pos (ne_of_lt hneg), if_neg (not_lt.mpr (le_of_lt hneg)),
      abs_of_nonneg hd, abs_of_neg hneg]
    by_cases hlt : -b.angularVelocity < b.angularDampingFactor
    · rw [if_pos hlt, abs_zero, max_eq_left (by linarith)]
      exact ⟨rfl, fun _ => le_refl 0, fun _ => le_refl 0⟩
    · rw [if_neg hlt]
      push_neg at hlt
      refine ⟨?_, fun h0 => by linarith, fun _ => by linarith⟩
      rw [abs_of_nonpos (by linarith), max_eq_right (by linarith)]
      ring
  · rw [hzero, if_neg (not_not_intro rfl), abs_zero, if_neg (lt_irrefl 0), add_zero,
      abs_zero, max_eq_left (by linarith)]
    exact ⟨rfl, fun _ => le_refl 0, fun _ => le_refl 0⟩
  · rw [if_pos (ne_of_gt hpos), if_pos hpos, abs_neg, abs_of_nonneg hd,
      abs_of_pos hpos]
    by_cases hlt : b.angularVelocity < b.angularDampingFactor
    · rw [if_pos hlt, abs_zero, max_eq_left (by linarith)]
      exact ⟨rfl, fun _ => le_refl 0, fun _ => le_refl 0⟩
    · rw [if_neg hlt]
      push_neg at hlt
      refine ⟨?_, fun _ => by linarith, fun h0 => by linarith⟩
      rw [abs_of_nonneg (by linarith), max_eq_right (by linarith)]
      ring

/-- **C7.** For every polygon with at least one vertex, the AABB getter
returns exactly the componentwise minima and maxima of the current
absolute vertices (each bound is both a bound and attained); for every
circle, the AABB is `center ± (radius, radius)`. -/
theorem c7_aabb :
    (∀ (p : Polygon), p.vertices ≠ [] →
      ((∀ q ∈ p.getVerticesAbsCoord,
          (p.AABB).min.x ≤ q.x ∧ (p.AABB).min.y ≤ q.y ∧
          q.x ≤ (p.AABB).max.x ∧ q.y ≤ (p.AABB).max.y) ∧
       (∃ q ∈ p.getVerticesAbsCoord, (p.AABB).min.x = q.x) ∧
       (∃ q ∈ p.getVerticesAbsCoord, (p.AABB).min.y = q.y) ∧
       (∃ q ∈ p.getVerticesAbsCoord, (p.AABB).max.x = q.x) ∧
       (∃ q ∈ p.getVerticesAbsCoord, (p.AABB).max.y = q.y))) ∧
    (∀ (c : Circle),
      (c.AABB).min = PointCal.subVector c.body.center ⟨c.radius, c.radius⟩ ∧
      (c.AABB).max = PointCal.addVector c.body.center ⟨c.radius, c.radius⟩) := by
  constructor
  · intro p hp
    have hpts : p.getVerticesAbsCoord ≠ [] := by
      intro h
      exact hp (List.map_eq_nil_iff.mp h)
    have hxne : (p.getVerticesAbsCoord).map (fun vertex => vertex.x) ≠ [] := by
      intro h
      exact hpts (List.map_eq_nil_iff.mp h)
    have hyne : (p.getVerticesAbsCoord).map (fun vertex => vertex.y) ≠ [] := by
      intro h
      exact hpts (List.map_eq_nil_iff.mp h)
    refine ⟨?_, ?_, ?_, ?_, ?_⟩
    · intro q hq
      exact ⟨listMin_le (List.mem_map_of_mem _ hq),
        listMin_le (List.mem_map_of_mem _ hq),
        le_listMax (List.mem_map_of_mem _ hq),
        le_listMax (List.mem_map_of_mem _ hq)⟩
    · obtain ⟨a, ha, hax⟩ := List.mem_map.mp (listMin_mem hxne)
      exact ⟨a, ha, hax.symm⟩
    · obtain ⟨a, ha, hay⟩ := List.mem_map.mp (listMin_mem hyne)
      exact ⟨a, ha, hay.symm⟩
    · obtain ⟨a, ha, hax⟩ := List.mem_map.mp (listMax_mem hxne)
      exact ⟨a, ha, hax.symm⟩
    · obtain ⟨a, ha, hay⟩ := List.mem_map.mp (listMax_mem hyne)
      exact ⟨a, ha, hay.symm⟩
  · exact fun c => ⟨rfl, rfl⟩

/-- The concrete polygon of the C7 and C8 witnesses: a right triangle at
the origin with identity pose. -/
def triExample : Polygon :=
  Polygon.new ⟨0, 0⟩ [⟨0, 0⟩, ⟨4, 0⟩, ⟨0, 3⟩] 0 50 false true

/-- **C7, witness.** The polygon half of the statement applied to a
concrete triangle (the circle half has no hypothesis). -/
theorem c7_witness :
    (∀ q ∈ triExample.getVerticesAbsCoord,
        (triExample.AABB).min.x ≤ q.x ∧ (triExample.AABB).min.y ≤ q.y ∧
        q.x ≤ (triExample.AABB).max.x ∧ q.y ≤ (triExample.AABB).max.y) ∧
    (∃ q ∈ triExample.getVerticesAbsCoord, (triExample.AABB).min.x = q.x) ∧
    (∃ q ∈ triExample.getVerticesAbsCoord, (triExample.AABB).min.y = q.y) ∧
    (∃ q ∈ triExample.getVerticesAbsCoord, (triExample.AABB).max.x = q.x) ∧
    (∃ q ∈ triExample.getVerticesAbsCoord, (triExample.AABB).max.y = q.y) :=
  c7_aabb.1 triExample (by simp [triExample, Polygon.new])

namespace Polygon

/-- `getAdjacentFaces` with its local variables inlined. -/
lemma getAdjacentFaces_eq (p : Polygon) (n : Vec2) :
    p.getAdjacentFaces n =
      (if PointCal.dotProduct (p.vertexAt (cpred p.getVerticesAbsCoord.length (p.maxProjIndex n))) n >
        PointCal.dotProduct (p.vertexAt (csucc p.getVerticesAbsCoord.length (p.maxProjIndex n))) n then
        [⟨⟨(p.vertexAt (cpred p.getVerticesAbsCoord.length (cpred p.getVerticesAbsCoord.length (p.maxProjIndex n)))), (cpred p.getVerticesAbsCoord.length (cpred p.getVerticesAbsCoord.length (p.maxProjIndex n)))⟩, ⟨(p.vertexAt (cpred p.getVerticesAbsCoord.length (p.maxProjIndex n))), (cpred p.getVerticesAbsCoord.length (p.maxProjIndex n))⟩⟩,
         ⟨⟨(p.vertexAt (p.maxProjIndex n)), (p.maxProjIndex n)⟩, ⟨(p.vertexAt (csucc p.getVerticesAbsCoord.length (p.maxProjIndex n))), (csucc p.getVerticesAbsCoord.length (p.maxProjIndex n))⟩⟩,
         ⟨⟨(p.vertexAt (cpred p.getVerticesAbsCoord.length (p.maxProjIndex n))), (cpred p.getVerticesAbsCoord.length (p.maxProjIndex n))⟩, ⟨(p.vertexAt (p.maxProjIndex n)), (p.maxProjIndex n)⟩⟩]
      else
        [⟨⟨(p.vertexAt (cpred p.getVerticesAbsCoord.length (p.maxProjIndex n))), (cpred p.getVerticesAbsCoord.length (p.maxProjIndex n))⟩, ⟨(p.vertexAt (p.maxProjIndex n)), (p.maxProjIndex n)⟩⟩,
         ⟨⟨(p.vertexAt (csucc p.getVerticesAbsCoord.length (p.maxProjIndex n))), (csucc p.getVerticesAbsCoord.length (p.maxProjIndex n))⟩, ⟨(p.vertexAt (csucc p.getVerticesAbsCoord.length (csucc p.getVerticesAbsCoord.length (p.maxProjIndex n)))), (csucc p.getVerticesAbsCoord.length (csucc p.getVerticesAbsCoord.length (p.maxProjIndex n)))⟩⟩,
         ⟨⟨(p.vertexAt (p.maxProjIndex n)), (p.maxProjIndex n)⟩, ⟨(p.vertexAt (csucc p.getVerticesAbsCoord.length (p.maxProjIndex n))), (csucc p.getVerticesAbsCoord.length (p.maxProjIndex n))⟩⟩]) := rfl

/-- `significantFaceIndex` with its local variables inlined. -/
lemma significantFaceIndex_eq (p : Polygon) (n : Vec2) :
    p.significantFaceIndex n =
      (if PointCal.dotProduct (p.vertexAt (cpred p.getVerticesAbsCoord.length (p.maxProjIndex n))) n >
        PointCal.dotProduct (p.vertexAt (csucc p.getVerticesAbsCoord.length (p.maxProjIndex n))) n then
        (cpred p.getVerticesAbsCoord.length (p.maxProjIndex n))
      else
        (p.maxProjIndex n)) := rfl

/-- `getSignificantVertices` with its local variables inlined. -/
lemma getSignificantVertices_eq (p : Polygon) (n : Vec2) :
    p.getSignificantVertices n =
      (if PointCal.dotProduct (p.vertexAt (cpred p.getVerticesAbsCoord.length (p.maxProjIndex n))) n >
        PointCal.dotProduct (p.vertexAt (csucc p.getVerticesAbsCoord.length (p.maxProjIndex n))) n then
        [(p.vertexAt (cpred p.getVerticesAbsCoord.length (p.maxProjIndex n))), (p.vertexAt (p.maxProjIndex n))]
      else
        [(p.vertexAt (p.maxProjIndex n)), (p.vertexAt (csucc p.getVerticesAbsCoord.length (p.maxProjIndex n)))]) := rfl

lemma edgeFace_eq (p : Polygon) (i : Nat) :
    p.edgeFace i =
      ⟨⟨p.vertexAt i, i⟩,
       ⟨p.vertexAt (csucc p.getVerticesAbsCoord.length i),
        csucc p.getVerticesAbsCoord.length i⟩⟩ := rfl

end Polygon

/-- **C8.** For every polygon with at least 3 vertices and every collision
normal, `getAdjacentFaces` returns exactly three faces, and they are the
three consecutive cyclic edges (in vertex order, each endpoint carrying
its absolute coordinate and original vertex index) centred on the
significant face — the returned list is
`[edge (s-1), edge (s+1), edge s]` for the significant face index `s`,
whose endpoints are exactly `getSignificantVertices` (the two vertices of
maximal projection along the normal).  For every circle,
`getAdjacentFaces` returns the empty list. -/
theorem c8_adjacent_faces :
    (∀ (p : Polygon) (n : Vec2), 3 ≤ p.vertices.length →
      (p.getAdjacentFaces n =
        [p.edgeFace (cpred p.getVerticesAbsCoord.length (p.significantFaceIndex n)),
         p.edgeFace (csucc p.getVerticesAbsCoord.length (p.significantFaceIndex n)),
         p.edgeFace (p.significantFaceIndex n)] ∧
       [(p.edgeFace (p.significantFaceIndex n)).startPoint.coord,
        (p.edgeFace (p.significantFaceIndex n)).endPoint.coord] =
         p.getSignificantVertices n)) ∧
    (∀ (c : Circle) (n : Vec2), c.getAdjacentFaces n = []) := by
  constructor
  · intro p n h3
    have hL : p.getVerticesAbsCoord.length = p.vertices.length := by
      simp [Polygon.getVerticesAbsCoord]
    have hL3 : 3 ≤ p.getVerticesAbsCoord.length := by
      rw [hL]
      exact h3
    have hL1 : 1 ≤ p.getVerticesAbsCoord.length := by omega
    have habs : (p.absProjections n).length = p.getVerticesAbsCoord.length := by
      simp [Polygon.absProjections]
    have hne : p.absProjections n ≠ [] := by
      intro hnil
      rw [hnil] at habs
      simp at habs
      omega
    have hm : p.maxProjIndex n < p.getVerticesAbsCoord.length := by
      have h := idxOfMax_lt_length hne
      rw [habs] at h
      exact h
    have hprev : cpred p.getVerticesAbsCoord.length (p.maxProjIndex n) <
        p.getVerticesAbsCoord.length := cpred_lt hL1 hm
    rw [Polygon.getAdjacentFaces_eq, Polygon.significantFaceIndex_eq,
      Polygon.getSignificantVertices_eq]
    by_cases hc : PointCal.dotProduct (p.vertexAt (cpred p.getVerticesAbsCoord.length (p.maxProjIndex n))) n > PointCal.dotProduct (p.vertexAt (csucc p.getVerticesAbsCoord.length (p.maxProjIndex n))) n
    · simp only [if_pos hc]
      simp only [Polygon.edgeFace_eq]
      rw [csucc_cpred hL1 hprev, csucc_cpred hL1 hm]
      exact ⟨rfl, rfl⟩
    · simp only [if_neg hc]
      simp only [Polygon.edgeFace_eq]
      rw [csucc_cpred hL1 hm]
      exact ⟨rfl, trivial⟩
  · exact fun c n => rfl

/-- **C8, witness.** The polygon half of the statement applied to the
concrete triangle and the upward normal (the circle half has no
hypothesis). -/
theorem c8_witness :
    triExample.getAdjacentFaces ⟨0, 1⟩ =
      [triExample.edgeFace (cpred triExample.getVerticesAbsCoord.length
          (triExample.significantFaceIndex ⟨0, 1⟩)),
       triExample.edgeFace (csucc triExample.getVerticesAbsCoord.length
          (triExample.significantFaceIndex ⟨0, 1⟩)),
       triExample.edgeFace (triExample.significantFaceIndex ⟨0, 1⟩)] ∧
    [(triExample.edgeFace (triExample.significantFaceIndex ⟨0, 1⟩)).startPoint.coord,
     (triExample.edgeFace (triExample.significantFaceIndex ⟨0, 1⟩)).endPoint.coord] =
      triExample.getSignificantVertices ⟨0, 1⟩ :=
  c8_adjacent_faces.1 triExample ⟨0, 1⟩ (by norm_num [triExample, Polygon.new])

end

end Bolt2D
